import Mathlib

/-!
Verification development for `server/gfs-update.js`: a script that downloads
a range of GFS model files, extracts data layers via an external converter,
and publishes the layers to an object store.

The JavaScript is shallowly embedded as pure Lean functions.  External
collaborators (filesystem, HTTP transfer, converter process, object store,
scraper) are represented by explicit environment records whose fields hold the
answers those collaborators would give; the control flow of the script itself
is translated line by line.  Times are modelled as integers (milliseconds
since the Unix epoch), mirroring JavaScript `Date.getTime()`.
-/

/-! ### A model of JavaScript date parsing

`new Date(string)` with an ISO-8601 string of the exact shape produced by
`Date.prototype.toISOString` (`YYYY-MM-DDTHH:MM:SS.sssZ`, year ≥ 1970)
yields the corresponding epoch milliseconds; anything else is modelled as an
invalid date (`none`), in particular the empty string.  Comparisons against
an invalid date are false in JavaScript (`NaN` comparisons), which
`jsDateLt` / `jsDateGe` reproduce.
-/

def isLeapYear (y : Nat) : Bool :=
  y % 4 == 0 && (y % 100 != 0 || y % 400 == 0)

def daysInMonth (y m : Nat) : Nat :=
  match m with
  | 1 => 31
  | 2 => if isLeapYear y then 29 else 28
  | 3 => 31
  | 4 => 30
  | 5 => 31
  | 6 => 30
  | 7 => 31
  | 8 => 31
  | 9 => 30
  | 10 => 31
  | 11 => 30
  | 12 => 31
  | _ => 0

/-- Days contributed by the months strictly before month `m` of year `y`. -/
def monthOffset (y m : Nat) : Nat :=
  let leap := if isLeapYear y then 1 else 0
  match m with
  | 1 => 0
  | 2 => 31
  | 3 => 59 + leap
  | 4 => 90 + leap
  | 5 => 120 + leap
  | 6 => 151 + leap
  | 7 => 181 + leap
  | 8 => 212 + leap
  | 9 => 243 + leap
  | 10 => 273 + leap
  | 11 => 304 + leap
  | 12 => 334 + leap
  | _ => 0

/-- Leap days between 1970-01-01 and Jan 1 of year `y` (for `y ≥ 1970`). -/
def leapDaysSinceEpoch (y : Nat) : Nat :=
  ((y - 1) / 4 + (y - 1) / 400) - ((y - 1) / 100 + 477)

/-- Days from 1970-01-01 to the date `y-m-d` (valid dates, `y ≥ 1970`). -/
def daysFromEpoch (y m d : Nat) : Nat :=
  365 * (y - 1970) + leapDaysSinceEpoch y + monthOffset y m + (d - 1)

def digitVal (c : Char) : Option Nat :=
  if c.isDigit then some (c.toNat - 48) else none

def num2 (a b : Char) : Option Nat :=
  match digitVal a, digitVal b with
  | some x, some y => some (10 * x + y)
  | _, _ => none

def num3 (a b c : Char) : Option Nat :=
  match digitVal a, digitVal b, digitVal c with
  | some x, some y, some z => some (100 * x + 10 * y + z)
  | _, _, _ => none

def num4 (a b c d : Char) : Option Nat :=
  match digitVal a, digitVal b, digitVal c, digitVal d with
  | some w, some x, some y, some z => some (1000 * w + 100 * x + 10 * y + z)
  | _, _, _, _ => none

/-- Model of JavaScript `new Date(s).getTime()`: `some` epoch milliseconds for
a strict `toISOString`-shaped string, `none` for an invalid date. -/
def jsParseDate (s : String) : Option Int :=
  match s.data with
  | [y1, y2, y3, y4, c1, m1, m2, c2, d1, d2, c3, h1, h2, c4, n1, n2, c5, s1, s2, c6, f1, f2, f3, c7] =>
    if c1 = '-' ∧ c2 = '-' ∧ c3 = 'T' ∧ c4 = ':' ∧ c5 = ':' ∧ c6 = '.' ∧ c7 = 'Z' then
      match num4 y1 y2 y3 y4, num2 m1 m2, num2 d1 d2, num2 h1 h2, num2 n1 n2, num2 s1 s2, num3 f1 f2 f3 with
      | some y, some mo, some dy, some h, some mi, some sec, some ms =>
        if 1970 ≤ y ∧ 1 ≤ mo ∧ mo ≤ 12 ∧ 1 ≤ dy ∧ dy ≤ daysInMonth y mo ∧ h ≤ 23 ∧ mi ≤ 59 ∧ sec ≤ 59 then
          some ((daysFromEpoch y mo dy * 86400000 + h * 3600000 + mi * 60000 + sec * 1000 + ms : Nat) : Int)
        else none
      | _, _, _, _, _, _, _ => none
    else none
  | _ => none

/-- Model of `new Date(s) < t` in JavaScript: false when `s` does not parse
(a NaN comparison). -/
def jsDateLt (a : Option Int) (t : Int) : Bool :=
  match a with
  | some v => decide (v < t)
  | none => false

/-- Model of `new Date(s) >= t` in JavaScript: false when `s` does not parse
(a NaN comparison). -/
def jsDateGe (a : Option Int) (t : Int) : Bool :=
  match a with
  | some v => decide (t ≤ v)
  | none => false

/-! ### Promises

A settled when.js promise is either resolved with a value or rejected with a
reason.  `whenMap` models `when.map`: it resolves with the list of mapped
values when every element resolves, and rejects as soon as any element
rejects (when.js aggregates are fail-fast on rejection). -/

inductive JSResult (ε : Type) (α : Type) where
  | resolved (a : α)
  | rejected (e : ε)
  deriving DecidableEq, Repr

def whenMap {ε α β : Type} (f : α → JSResult ε β) : List α → JSResult ε (List β)
  | [] => .resolved []
  | a :: as =>
    match f a with
    | .rejected e => .rejected e
    | .resolved b =>
      match whenMap f as with
      | .rejected e => .rejected e
      | .resolved bs => .resolved (b :: bs)

/-! ### Recipes and layers (`LAYER_RECIPES`, `gfs.layer`)

The `gfs` module is an external collaborator; a layer is modelled by the data
the script actually consults: its recipe name, its product's cycle reference
time (`layer.product.cycle.date()`, epoch ms), its product's forecast hour,
and the `isCurrent` flag.  The recipe registry is transcribed from
`LAYER_RECIPES` in the script. -/

structure Recipe where
  id : String
  name : String
  filter : String
  deriving DecidableEq, Repr

def LAYER_RECIPES : List Recipe :=
  [⟨"wi10", "wind-isobaric-10hPa", "--fc 2 --fp wind --fs 100 --fv 1000"⟩,
   ⟨"wi70", "wind-isobaric-70hPa", "--fc 2 --fp wind --fs 100 --fv 7000"⟩,
   ⟨"wi250", "wind-isobaric-250hPa", "--fc 2 --fp wind --fs 100 --fv 25000"⟩,
   ⟨"wi500", "wind-isobaric-500hPa", "--fc 2 --fp wind --fs 100 --fv 50000"⟩,
   ⟨"wi700", "wind-isobaric-700hPa", "--fc 2 --fp wind --fs 100 --fv 70000"⟩,
   ⟨"wi850", "wind-isobaric-850hPa", "--fc 2 --fp wind --fs 100 --fv 85000"⟩,
   ⟨"wi1000", "wind-isobaric-1000hPa", "--fc 2 --fp wind --fs 100 --fv 100000"⟩]

structure Layer where
  recipe : String
  cycleTime : Int
  forecastHour : Nat
  isCurrent : Bool
  deriving DecidableEq, Repr

/-! ### Mirror pool (`servers`, `nextServer`, `releaseServer`)

The script keeps a global array of server names.  `servers.pop()` removes and
returns the last element (falling back to `gfs.servers.NOMADS` and logging an
error when the array is empty, without mutating it); `servers.push(s)`
appends.  The pool is threaded explicitly as a `List String`. -/

def NOMADS : String := "nomads.ncep.noaa.gov"

def nextServer (servers : List String) : String × List String :=
  match servers.getLast? with
  | none => (NOMADS, servers)
  | some s => (s, servers.dropLast)

def releaseServer (servers : List String) (server : String) : List String :=
  servers ++ [server]

/-! ### Fetch stage (`download`)

`download(product)` returns the product immediately when the local file
exists; otherwise it acquires a server, issues the HTTP GET, and in the
*success* handler first releases the server and then either treats a status
≥ 300 as a skipped product or renames the temp file into place.  The
rejection handler passed to `.then` is `null`, so a rejected transfer
propagates the rejection (with no release and no rename).

The transfer collaborator's outcome is an input (`DownloadOutcome`); the
observable effects are returned in `FetchTrace`, and the mutable world (local
file existence for this product, the server pool) in `FetchState`. -/

inductive DownloadOutcome where
  | resolvedTransfer (statusCode : Nat)
  | rejectedTransfer
  deriving DecidableEq, Repr

inductive DlResult where
  | resolvedProduct
  | rejectedDownload
  deriving DecidableEq, Repr

structure FetchState where
  fileExists : Bool
  servers : List String
  deriving DecidableEq, Repr

structure FetchTrace where
  result : DlResult
  acquiredMirror : Bool
  networkUsed : Bool
  deriving DecidableEq, Repr

def download (transfer : DownloadOutcome) (st : FetchState) : FetchTrace × FetchState :=
  if st.fileExists then
    (⟨.resolvedProduct, false, false⟩, st)
  else
    let acq := nextServer st.servers
    match transfer with
    | .resolvedTransfer statusCode =>
      let pool := releaseServer acq.2 acq.1
      if 300 ≤ statusCode then
        (⟨.resolvedProduct, true, true⟩, ⟨false, pool⟩)
      else
        (⟨.resolvedProduct, true, true⟩, ⟨true, pool⟩)
    | .rejectedTransfer =>
      (⟨.rejectedDownload, true, true⟩, ⟨false, acq.2⟩)

/-! ### Publish stage (`pushLayer`, `isNewerThan`)

Remote metadata is an association map of string keys to string values;
`(existing.Metadata || {})["reference-time"]` is a lookup yielding
`Option String`.  `isNewerThan` transcribes

  `!refTime || new Date(refTime) < layer.product.cycle.date() || layer.isCurrent`

noting that in JavaScript `!refTime` is also true for the *empty string*
(the only falsy string), not just for an absent entry. -/

def Metadata := List (String × String)

def lookupMeta (m : Metadata) (k : String) : Option String :=
  match m with
  | [] => none
  | (k0, v) :: rest => if k0 = k then some v else lookupMeta rest k

def isNewerThan (existing : Metadata) (cycleTime : Int) (isCurrent : Bool) : Bool :=
  match lookupMeta existing "reference-time" with
  | none => true
  | some refTime =>
    if refTime = "" then true
    else jsDateLt (jsParseDate refTime) cycleTime || isCurrent

inductive PushResult where
  | nullResult
  | uploadCall (cycleTime : Int) (isCurrent : Bool)
  deriving DecidableEq, Repr

/-- Transcription of `pushLayer(layer)`: null when the layer is absent or
its local file does not exist; otherwise it calls `aws.uploadFile` passing
the `isNewerThan` closure over the layer's cycle time and current flag. -/
def pushLayer (layerFileExists : Bool) : Option Layer → PushResult
  | none => .nullResult
  | some layer =>
    if layerFileExists then .uploadCall layer.cycleTime layer.isCurrent
    else .nullResult

/-! ### Extract stage (`extractLayer`, `extractLayers`, `processLayer`)

The collaborator answers that an extraction consults are gathered in
`ExtractEnv`: whether the product file exists, whether the layer file exists
and with which embedded `[0].header.refTime`, the converter's exit status and
the number of records it produced (`processLayer` returns null exactly when
that count is zero; the per-record `meta.date` annotation is not observed by
any property below). -/

structure ExtractEnv where
  productExists : Bool
  layerExists : Bool
  refTime : String
  converterExit : Int
  records : Nat
  deriving DecidableEq, Repr

structure ExtractStep where
  result : JSResult Int (Option Layer)
  invokedConverter : Bool
  wroteLayerFile : Bool
  deriving DecidableEq, Repr

def extractLayer (env : ExtractEnv) (layer : Layer) : ExtractStep :=
  if !env.productExists then
    ⟨.resolved none, false, false⟩
  else if env.layerExists && jsDateGe (jsParseDate env.refTime) layer.cycleTime then
    ⟨.resolved (some layer), false, false⟩
  else if env.converterExit ≠ 0 then
    ⟨.rejected env.converterExit, true, false⟩
  else if env.records = 0 then
    ⟨.resolved none, true, false⟩
  else
    ⟨.resolved (some layer), true, true⟩

/-- Transcription of `extractLayers(product)`: builds one layer per recipe
and maps them through `extractLayer` with `when.map`. -/
def extractLayers (envs : String → ExtractEnv) (cycleTime : Int) (forecastHour : Nat) :
    JSResult Int (List (Option Layer)) :=
  whenMap (fun r => (extractLayer (envs r.id) ⟨r.name, cycleTime, forecastHour, false⟩).result)
    LAYER_RECIPES

/-! ### Discovery service (`checkProductsExist`, `inspectRecentCycles`)

The scraper collaborator's answers are inputs: `dirs` is the list of match
strings produced by `matchText(/gfs\.\d{10}\/$/, dom)` on the top-level
listing, and `env dir` is the list of `href` attributes found in directory
`dir`'s listing.  `uIntersection` transcribes underscore.js
`_.intersection`: it keeps each element of the first list that occurs in the
second, skipping elements already kept (first occurrence wins).  The
expected product file names (built by the external `gfs.product().file()`)
are passed in as `expected`. -/

def uIntersectionAux (ys : List String) (acc : List String) : List String → List String
  | [] => acc
  | x :: xs =>
    if x ∈ acc ∨ x ∉ ys then uIntersectionAux ys acc xs
    else uIntersectionAux ys (acc ++ [x]) xs

def uIntersection (xs ys : List String) : List String :=
  uIntersectionAux ys [] xs

/-- The cycle determined by a directory name `gfs.yyyymmddhh/`: the script
rebuilds it from `dir.substr(4,4)`, `substr(8,2)`, `substr(10,2)`,
`substr(12,2)`, i.e. from characters 4..13; the cycle is identified here by
that ten-digit timestamp string. -/
def cycleOf (dir : String) : String :=
  (dir.drop 4).take 10

/-- Shape of the strings produced by the scraper's
`matchText(/gfs\.\d{10}\/$/, dom)`: a match is always the literal `gfs.`
followed by ten digits and a slash. -/
def isCycleDir (s : String) : Bool :=
  s.data.take 4 == ['g', 'f', 's', '.'] && s.data.length == 15 &&
    ((s.data.drop 4).take 10).all Char.isDigit && s.data.drop 14 == ['/']

/-- Numeric value of a fixed-width digit string (most significant first). -/
def digitsToNat : List Char → Nat
  | [] => 0
  | c :: cs => (c.toNat - 48) * 10 ^ cs.length + digitsToNat cs

/-- Chronological key of a candidate directory name: the numeric value of
its ten-digit `yyyymmddhh` timestamp (characters 4..13).  For the fixed
naming pattern, lexicographic order of names coincides with this key. -/
def chronoVal (dir : String) : Nat :=
  digitsToNat ((dir.data.drop 4).take 10)

def checkProductsExist (env : String → List String) (expected : List String) (dir : String) :
    Option String :=
  let allFiles := env dir
  let actualFiles := uIntersection expected allFiles
  if actualFiles.length = expected.length then some (cycleOf dir) else none

/-- The inner `check()` loop: `i` starts at `dirs.length` and `dirs[--i]` is
inspected, so the candidate list is traversed from its last element to its
first; the first complete directory's cycle wins, and exhaustion rejects. -/
def inspectLoop (env : String → List String) (expected : List String) :
    List String → Except String String
  | [] => .error "cannot find most recent cycle"
  | d :: ds =>
    match checkProductsExist env expected d with
    | some c => .ok c
    | none => inspectLoop env expected ds

/-- Model of `_.last(list, n)`: the last `n` elements (all when fewer). -/
def lastN (n : Nat) (l : List String) : List String :=
  l.drop (l.length - n)

/-- Boolean lexicographic strict comparison of character lists, the order
JavaScript string comparison uses (code-unit-wise; identical to
code-point-wise on these ASCII names). -/
def lexLtb : List Char → List Char → Bool
  | [], [] => false
  | [], _ :: _ => true
  | _ :: _, [] => false
  | c :: cs, d :: ds => if c < d then true else if d < c then false else lexLtb cs ds

/-- Model of the JavaScript string comparison `a < b`. -/
def jsLtb (a b : String) : Bool :=
  lexLtb a.data b.data

/-- Model of the JavaScript string comparison `a <= b`. -/
def jsLeb (a b : String) : Bool :=
  !(jsLtb b a)

/-- Model of `dirs.sort()`: the JavaScript default sort compares elements
as strings; any correct sort yields the list ordered by `jsLeb`. -/
def sortJS (l : List String) : List String :=
  List.insertionSort (fun a b => jsLeb a b = true) l

/-- Transcription of `inspectRecentCycles`: `dirs.sort()` followed by
`_.last(dirs, 3)` and the newest-first `check()` loop. -/
def inspectRecentCycles (env : String → List String) (expected : List String)
    (dirs : List String) : Except String String :=
  let cands := lastN 3 (sortJS dirs)
  inspectLoop env expected cands.reverse

/-! ### Current-pointer manager (`copyCurrent`)

The `gfs` module is not part of this source tree, so its temporal arithmetic
is modelled from the spec. -/

def sixHours : Int := 21600000

/-- Modelled from the spec: `gfs.cycle` (missing `gfs.js`) floors a
timestamp to the nearest ≤ 6-hour UTC boundary; `next()`/`previous()` are
±6 hours.  Cycles are represented by their reference time in epoch ms. -/
def cycleFromTimestamp (ts : Int) : Int :=
  ts - ts % sixHours

/-- Modelled from the spec: a Layer's storage path (missing `gfs.js`) is a
deterministic function of its components, a dated path normally and the
stable alias path when the layer is flagged current. -/
inductive LayerPath where
  | dated (cycleTime : Int) (forecastHour : Nat) (recipeName : String)
  | currentAlias (recipeName : String)
  deriving DecidableEq, Repr

def layerPath (l : Layer) : LayerPath :=
  if l.isCurrent then .currentAlias l.recipe
  else .dated l.cycleTime l.forecastHour l.recipe

/-- First loop of `copyCurrent`: starting from `gfs.cycle(now).next()`,
step back by one cycle while the product's date exceeds `now`.  (With
forecast hour 0 the product date equals the cycle time.) -/
def walkToNow (now t : Int) : Int :=
  if now < t then walkToNow now (t - sixHours)
  else t
termination_by (t - now).toNat
decreasing_by
  have h6 : (0 : Int) < sixHours := by decide
  omega

/-- Second loop of `copyCurrent`: while the anchor layer's file is absent,
step back one cycle, rejecting as soon as the date falls outside the
three-day lookback window. -/
def searchBack (onDisk : Int → Bool) (threeDaysAgo t : Int) : Except String Int :=
  if onDisk t then .ok t
  else
    let t1 := t - sixHours
    if t1 < threeDaysAgo then .error "No recent layers found."
    else searchBack onDisk threeDaysAgo t1
termination_by (t - threeDaysAgo).toNat
decreasing_by
  have h6 : (0 : Int) < sixHours := by decide
  omega

/-- One alias-creation step of `copyCurrent`: for a recipe, the dated source
layer, the current-flagged destination layer, and the byte copy of the
source file into the destination path. -/
structure CopyOp where
  srcPath : LayerPath
  destPath : LayerPath
  destLayer : Layer
  deriving DecidableEq, Repr

/-- The collaborator answers `copyCurrent` consults: the clock, which cycle
times have the anchor (`wi1000`, forecast 0) layer on disk, and the header
(`refTime` in epoch ms, `forecastTime`) read back from the found file. -/
structure CurrentEnv where
  now : Int
  onDisk : Int → Bool
  headerRefTime : Int
  headerForecastTime : Nat

def copyCurrent (env : CurrentEnv) : Except String (List CopyOp) :=
  let threeDaysAgo := env.now - 3 * 24 * 60 * 60 * 1000
  let start := walkToNow env.now (cycleFromTimestamp env.now + sixHours)
  match searchBack env.onDisk threeDaysAgo start with
  | .error e => .error e
  | .ok _found =>
    let productCycle := cycleFromTimestamp env.headerRefTime
    let ops := LAYER_RECIPES.map (fun r =>
      let src : Layer := ⟨r.name, productCycle, env.headerForecastTime, false⟩
      let dest : Layer := ⟨r.name, productCycle, env.headerForecastTime, true⟩
      CopyOp.mk (layerPath src) (layerPath dest) dest)
    .ok ops

/-! ## Claims -/

/-- C10: publish is total on absent work — called with a null layer it
returns null, and called with a layer whose local file does not exist it
returns null without attempting an upload, so the null skip sentinels
emitted by the extract stage flow through the publish stage without
failure. -/
theorem pushLayer_total_on_absent_work (fileExists : Bool) (l : Layer) :
    pushLayer fileExists none = .nullResult ∧ pushLayer false (some l) = .nullResult :=
  ⟨rfl, rfl⟩

/-- C8: for a product whose local target file already exists, `download`
returns success immediately, acquires no mirror, performs no network I/O,
leaves the state unchanged, and a second call behaves identically
(idempotence). -/
theorem download_idempotent_on_existing (tr1 tr2 : DownloadOutcome) (st : FetchState)
    (h : st.fileExists = true) :
    download tr1 st = (⟨.resolvedProduct, false, false⟩, st) ∧
    download tr2 (download tr1 st).2 = (⟨.resolvedProduct, false, false⟩, st) := by
  have h1 : download tr1 st = (⟨.resolvedProduct, false, false⟩, st) := by
    unfold download
    rw [h]
    simp
  refine ⟨h1, ?_⟩
  rw [h1]
  unfold download
  rw [h]
  simp

/-- Witness for C8 at a concrete state whose file already exists. -/
theorem download_idempotent_on_existing_witness :
    (FetchState.mk true [NOMADS]).fileExists = true ∧
    download .rejectedTransfer ⟨true, [NOMADS]⟩ =
      (⟨.resolvedProduct, false, false⟩, ⟨true, [NOMADS]⟩) ∧
    download (.resolvedTransfer 200) (download .rejectedTransfer ⟨true, [NOMADS]⟩).2 =
      (⟨.resolvedProduct, false, false⟩, ⟨true, [NOMADS]⟩) :=
  ⟨rfl, (download_idempotent_on_existing .rejectedTransfer (.resolvedTransfer 200) ⟨true, [NOMADS]⟩ rfl).1,
    (download_idempotent_on_existing .rejectedTransfer (.resolvedTransfer 200) ⟨true, [NOMADS]⟩ rfl).2⟩

/-- C4 counterexample: with the local file absent and the transfer
collaborator rejecting, `download` rejects (the `.then` call passes `null`
as rejection handler, so the rejection propagates), instead of resolving
with a placeholder as the claim states for every transfer failure. -/
theorem download_rejected_transfer_counterexample :
    (download .rejectedTransfer ⟨false, [NOMADS]⟩).1.result = .rejectedDownload ∧
    (download .rejectedTransfer ⟨false, [NOMADS]⟩).1.result ≠ .resolvedProduct := by
  decide

/-- C4 (amended): with the local file absent, an HTTP status ≥ 300 resolves
with the product as a non-error placeholder (and installs no file), but a
rejected transfer rejects the returned promise — only the status-code kind
of transfer failure is converted into a placeholder. -/
theorem download_transfer_failure_behavior (st : FetchState) (code : Nat)
    (h : st.fileExists = false) :
    (300 ≤ code →
      (download (.resolvedTransfer code) st).1.result = .resolvedProduct ∧
      (download (.resolvedTransfer code) st).2.fileExists = false) ∧
    (download .rejectedTransfer st).1.result = .rejectedDownload := by
  unfold download
  rw [h]
  refine ⟨fun hc => ?_, by simp⟩
  simp [hc]

/-- Witness for the amended C4 at a concrete state and status code 404. -/
theorem download_transfer_failure_behavior_witness :
    (FetchState.mk false [NOMADS]).fileExists = false ∧
    (download (.resolvedTransfer 404) ⟨false, [NOMADS]⟩).1.result = .resolvedProduct ∧
    (download (.resolvedTransfer 404) ⟨false, [NOMADS]⟩).2.fileExists = false ∧
    (download .rejectedTransfer ⟨false, [NOMADS]⟩).1.result = .rejectedDownload :=
  ⟨rfl,
    ((download_transfer_failure_behavior ⟨false, [NOMADS]⟩ 404 rfl).1 (by decide)).1,
    ((download_transfer_failure_behavior ⟨false, [NOMADS]⟩ 404 rfl).1 (by decide)).2,
    (download_transfer_failure_behavior ⟨false, [NOMADS]⟩ 404 rfl).2⟩

/-- C3 counterexample: the pool starts as `["NOMADS", "NCEP"]`, the download
acquires the mirror `NCEP`, the transfer rejects, and the mirror is *not*
returned to the pool — the release only happens inside the success handler,
and `.then`'s rejection handler is `null`. -/
theorem download_mirror_leak_counterexample :
    (nextServer ["NOMADS", "NCEP"]).1 = "NCEP" ∧
    (download .rejectedTransfer ⟨false, ["NOMADS", "NCEP"]⟩).1.acquiredMirror = true ∧
    (download .rejectedTransfer ⟨false, ["NOMADS", "NCEP"]⟩).2.servers = ["NOMADS"] ∧
    "NCEP" ∉ (download .rejectedTransfer ⟨false, ["NOMADS", "NCEP"]⟩).2.servers := by
  decide

/-- C3 (amended): when the local file is absent and the pool is nonempty,
the acquired mirror is released back to the pool on a resolved transfer —
both on success and on HTTP status ≥ 300 — restoring the pool exactly; but
on a rejected transfer the mirror is not released and the pool is left
missing the acquired (last) mirror. -/
theorem download_release_behavior (st : FetchState) (code : Nat)
    (h : st.fileExists = false) (hne : st.servers ≠ []) :
    (download (.resolvedTransfer code) st).2.servers = st.servers ∧
    (download .rejectedTransfer st).2.servers = st.servers.dropLast := by
  rcases (List.eq_nil_or_concat st.servers) with hnil | ⟨as, a, hconcat⟩
  · exact absurd hnil hne
  · unfold download nextServer releaseServer
    rw [h, hconcat]
    simp [List.getLast?_concat]
    split <;> simp

/-- Witness for the amended C3 at a concrete two-mirror pool. -/
theorem download_release_behavior_witness :
    (FetchState.mk false ["NOMADS", "NCEP"]).fileExists = false ∧
    (download (.resolvedTransfer 500) ⟨false, ["NOMADS", "NCEP"]⟩).2.servers = ["NOMADS", "NCEP"] ∧
    (download .rejectedTransfer ⟨false, ["NOMADS", "NCEP"]⟩).2.servers = ["NOMADS"] :=
  ⟨rfl,
    (download_release_behavior ⟨false, ["NOMADS", "NCEP"]⟩ 500 rfl (by decide)).1,
    (download_release_behavior ⟨false, ["NOMADS", "NCEP"]⟩ 500 rfl (by decide)).2⟩

/-- C1 counterexample: a remote metadata map that *has* a `reference-time`
entry whose value is the empty string.  The empty string is the one falsy
JavaScript string, so `!refTime` is true and the predicate returns true,
although the entry is present, does not parse as a date (hence is not
strictly older than the cycle time), and the layer is not current — the
claimed if-and-only-if fails at this input. -/
theorem isNewerThan_empty_entry_counterexample :
    isNewerThan [("reference-time", "")] 0 false = true ∧
    lookupMeta [("reference-time", "")] "reference-time" = some "" ∧
    jsParseDate "" = none := by
  decide

/-- C1 (amended): the publish overwrite predicate returns true iff the
metadata has no `reference-time` entry, *or the entry is the empty string*,
or the entry parses as a date strictly older than the layer's cycle time,
or the layer is flagged current. -/
theorem isNewerThan_characterization (m : Metadata) (cycleTime : Int) (isCurrent : Bool) :
    isNewerThan m cycleTime isCurrent = true ↔
      lookupMeta m "reference-time" = none ∨
      lookupMeta m "reference-time" = some "" ∨
      (∃ s t, lookupMeta m "reference-time" = some s ∧ jsParseDate s = some t ∧ t < cycleTime) ∨
      isCurrent = true := by
  unfold isNewerThan
  cases hlk : lookupMeta m "reference-time" with
  | none => simp
  | some s =>
    by_cases hs : s = ""
    · subst hs
      simp
    · simp only [if_neg hs, Option.some.injEq, Bool.or_eq_true]
      cases hp : jsParseDate s with
      | none =>
        simp only [jsDateLt]
        constructor
        · rintro (hfalse | hcur)
          · exact absurd hfalse (by simp)
          · exact Or.inr (Or.inr (Or.inr hcur))
        · rintro (hnone | hemp | ⟨s2, t, hs2, hpt, _⟩ | hcur)
          · exact absurd hnone (by simp)
          · exact absurd hemp hs
          · rw [← hs2] at hpt
            rw [hp] at hpt
            exact absurd hpt (by simp)
          · exact Or.inr hcur
      | some t =>
        simp only [jsDateLt]
        constructor
        · rintro (hlt | hcur)
          · exact Or.inr (Or.inr (Or.inl ⟨s, t, rfl, hp, of_decide_eq_true hlt⟩))
          · exact Or.inr (Or.inr (Or.inr hcur))
        · rintro (hnone | hemp | ⟨s2, t2, hs2, hpt, hlt⟩ | hcur)
          · exact absurd hnone (by simp)
          · exact absurd hemp hs
          · rw [← hs2] at hpt
            rw [hp] at hpt
            exact Or.inl (decide_eq_true (Option.some.inj hpt ▸ hlt))
          · exact Or.inr hcur

/-- C2: when the layer file already exists on disk and its embedded
`refTime` parses to `t`, extraction keeps the existing file (resolving with
the layer, invoking no converter and writing nothing) exactly when
`t` is at least the product's cycle time, and when `t` is strictly older it
proceeds to replace it: the converter is invoked, and the file is written
whenever the converter exits 0 with a nonempty record set. -/
theorem extractLayer_freshness_guard (env : ExtractEnv) (l : Layer) (t : Int)
    (hp : env.productExists = true) (hl : env.layerExists = true)
    (hparse : jsParseDate env.refTime = some t) :
    (l.cycleTime ≤ t →
      extractLayer env l = ⟨.resolved (some l), false, false⟩) ∧
    (t < l.cycleTime →
      (extractLayer env l).invokedConverter = true ∧
      (env.converterExit = 0 → 0 < env.records → (extractLayer env l).wroteLayerFile = true)) := by
  unfold extractLayer
  rw [hp, hl]
  simp only [jsDateGe, hparse, Bool.not_true, Bool.false_eq_true, if_false, Bool.true_and]
  constructor
  · intro hle
    rw [decide_eq_true hle]
    simp
  · intro hlt
    rw [decide_eq_false (by omega)]
    simp only [Bool.false_eq_true, if_false]
    constructor
    · split
      · rfl
      · split <;> rfl
    · intro hexit hrec
      rw [if_neg (by simp [hexit]), if_neg (by omega)]

/-- Witness for C2: a concrete environment whose on-disk layer is embedded
with the epoch reference time against a cycle also at the epoch (fresh, so
the layer is kept), and one with a strictly newer cycle (replaced). -/
theorem extractLayer_freshness_guard_witness :
    jsParseDate "1970-01-01T00:00:00.000Z" = some 0 ∧
    extractLayer ⟨true, true, "1970-01-01T00:00:00.000Z", 0, 1⟩ ⟨"wind-isobaric-1000hPa", 0, 0, false⟩ =
      ⟨.resolved (some ⟨"wind-isobaric-1000hPa", 0, 0, false⟩), false, false⟩ ∧
    (extractLayer ⟨true, true, "1970-01-01T00:00:00.000Z", 0, 1⟩ ⟨"wind-isobaric-1000hPa", 21600000, 0, false⟩).invokedConverter = true :=
  ⟨by decide,
    (extractLayer_freshness_guard ⟨true, true, "1970-01-01T00:00:00.000Z", 0, 1⟩
      ⟨"wind-isobaric-1000hPa", 0, 0, false⟩ 0 rfl rfl (by decide)).1 (by decide),
    ((extractLayer_freshness_guard ⟨true, true, "1970-01-01T00:00:00.000Z", 0, 1⟩
      ⟨"wind-isobaric-1000hPa", 21600000, 0, false⟩ 0 rfl rfl (by decide)).2 (by decide)).1⟩

/-- C9: when extraction skips a layer because the on-disk layer is
fresher-or-equal, it resolves with the layer object itself (not the null
skip sentinel), so the publish stage, fed that result, reaches the
`uploadFile` call carrying the layer's cycle time and current flag — with
publication then decided solely by the `isNewerThan` predicate over those
two values. -/
theorem extract_skip_still_reaches_publish (env : ExtractEnv) (l : Layer) (t : Int)
    (hp : env.productExists = true) (hl : env.layerExists = true)
    (hparse : jsParseDate env.refTime = some t) (hfresh : l.cycleTime ≤ t) :
    (extractLayer env l).result = .resolved (some l) ∧
    pushLayer true (some l) = .uploadCall l.cycleTime l.isCurrent ∧
    pushLayer true (some l) ≠ .nullResult := by
  refine ⟨?_, rfl, by simp [pushLayer]⟩
  unfold extractLayer
  rw [hp, hl]
  simp only [jsDateGe, hparse, Bool.not_true, Bool.false_eq_true, if_false, Bool.true_and]
  rw [decide_eq_true hfresh]
  simp

/-- Witness for C9 at the concrete skip-fresh environment of C2's witness. -/
theorem extract_skip_still_reaches_publish_witness :
    (extractLayer ⟨true, true, "1970-01-01T00:00:00.000Z", 0, 1⟩ ⟨"wind-isobaric-500hPa", 0, 0, false⟩).result =
      .resolved (some ⟨"wind-isobaric-500hPa", 0, 0, false⟩) ∧
    pushLayer true (some ⟨"wind-isobaric-500hPa", 0, 0, false⟩) = .uploadCall 0 false :=
  ⟨(extract_skip_still_reaches_publish ⟨true, true, "1970-01-01T00:00:00.000Z", 0, 1⟩
      ⟨"wind-isobaric-500hPa", 0, 0, false⟩ 0 rfl rfl (by decide) (by decide)).1,
    (extract_skip_still_reaches_publish ⟨true, true, "1970-01-01T00:00:00.000Z", 0, 1⟩
      ⟨"wind-isobaric-500hPa", 0, 0, false⟩ 0 rfl rfl (by decide) (by decide)).2.1⟩

/-- Helper: a `when.map` aggregate rejects whenever the mapper rejects on
any element of the list. -/
theorem whenMap_rejects_of_mem {ε α β : Type} (f : α → JSResult ε β) (xs : List α) (x : α)
    (e : ε) (hx : x ∈ xs) (hf : f x = .rejected e) :
    ∃ e2, whenMap f xs = .rejected e2 := by
  induction xs with
  | nil => cases hx
  | cons a as ih =>
    cases hfa : f a with
    | rejected e0 => exact ⟨e0, by simp [whenMap, hfa]⟩
    | resolved b =>
      have hxas : x ∈ as := by
        rcases List.mem_cons.mp hx with rfl | hmem
        · rw [hf] at hfa
          cases hfa
        · exact hmem
      obtain ⟨e2, h2⟩ := ih hxas
      exact ⟨e2, by simp [whenMap, hfa, h2]⟩

/-- C5 counterexample: one recipe's converter (`wi250`) exits with status 1
while every sibling succeeds with data; the whole-product aggregate
`when.map` then *rejects* with that exit status — it does not resolve with
the siblings' item-level results, although each sibling extraction by
itself resolves. -/
theorem extractLayers_converter_failure_counterexample :
    extractLayers
      (fun rid => if rid = "wi250" then ⟨true, false, "", 1, 1⟩ else ⟨true, false, "", 0, 1⟩) 0 0 =
      .rejected 1 ∧
    (extractLayer (⟨true, false, "", 0, 1⟩ : ExtractEnv) ⟨"wind-isobaric-10hPa", 0, 0, false⟩).result =
      .resolved (some ⟨"wind-isobaric-10hPa", 0, 0, false⟩) := by
  constructor
  · rfl
  · rfl

/-- C5 (amended): a non-zero converter exit status rejects that layer's
extraction with the exit status as reason, and the rejection propagates
into the enclosing `when.map` aggregate, which rejects as a whole rather
than capturing the siblings' item-level results. -/
theorem converter_failure_rejects_layer_and_aggregate (envs : String → ExtractEnv)
    (cycleTime : Int) (forecastHour : Nat) (r : Recipe) (c : Int)
    (hr : r ∈ LAYER_RECIPES)
    (hpe : (envs r.id).productExists = true) (hle : (envs r.id).layerExists = false)
    (hexit : (envs r.id).converterExit = c) (hc : c ≠ 0) :
    (extractLayer (envs r.id) ⟨r.name, cycleTime, forecastHour, false⟩).result = .rejected c ∧
    ∃ e, extractLayers envs cycleTime forecastHour = .rejected e := by
  have hstep : (extractLayer (envs r.id) ⟨r.name, cycleTime, forecastHour, false⟩).result = .rejected c := by
    unfold extractLayer
    rw [hpe, hle]
    simp only [Bool.not_true, Bool.false_eq_true, if_false, Bool.false_and]
    rw [if_pos (show (envs r.id).converterExit ≠ 0 by rw [hexit]; exact hc), hexit]
  refine ⟨hstep, ?_⟩
  exact whenMap_rejects_of_mem
    (fun rc => (extractLayer (envs rc.id) ⟨rc.name, cycleTime, forecastHour, false⟩).result)
    LAYER_RECIPES r c hr hstep

/-- Witness for the amended C5 at the concrete environment of the
counterexample. -/
theorem converter_failure_rejects_layer_and_aggregate_witness :
    (extractLayer ((fun rid => if rid = "wi250" then (⟨true, false, "", 1, 1⟩ : ExtractEnv) else ⟨true, false, "", 0, 1⟩) "wi250")
      ⟨"wind-isobaric-250hPa", 0, 0, false⟩).result = .rejected 1 ∧
    ∃ e, extractLayers
      (fun rid => if rid = "wi250" then ⟨true, false, "", 1, 1⟩ else ⟨true, false, "", 0, 1⟩) 0 0 =
      .rejected e :=
  converter_failure_rejects_layer_and_aggregate
    (fun rid => if rid = "wi250" then ⟨true, false, "", 1, 1⟩ else ⟨true, false, "", 0, 1⟩)
    0 0 ⟨"wi250", "wind-isobaric-250hPa", "--fc 2 --fp wind --fs 100 --fv 25000"⟩ 1
    (by decide) (by decide) (by decide) (by decide) (by decide)

/-! ### Lemmas about underscore intersection and the discovery loop -/

theorem uIntersectionAux_eq (ys : List String) (acc : List String) (xs : List String)
    (hnd : xs.Nodup) (hdisj : ∀ x ∈ xs, x ∉ acc) :
    uIntersectionAux ys acc xs = acc ++ xs.filter (fun x => decide (x ∈ ys)) := by
  induction xs generalizing acc with
  | nil => simp [uIntersectionAux]
  | cons x xs ih =>
    have hx : x ∉ acc := hdisj x (by simp)
    have hnd2 : xs.Nodup := hnd.of_cons
    by_cases hmem : x ∈ ys
    · have hcond : ¬(x ∈ acc ∨ x ∉ ys) := by
        rintro (h | h)
        · exact hx h
        · exact h hmem
      rw [uIntersectionAux, if_neg hcond]
      rw [ih (acc ++ [x]) hnd2 ?_]
      · simp [hmem]
      · intro z hz
        simp only [List.mem_append, List.mem_singleton]
        rintro (hzacc | rfl)
        · exact hdisj z (by simp [hz]) hzacc
        · exact (List.nodup_cons.mp hnd).1 hz
    · have hcond : x ∈ acc ∨ x ∉ ys := Or.inr hmem
      rw [uIntersectionAux, if_pos hcond]
      rw [ih acc hnd2 (fun z hz => hdisj z (by simp [hz]))]
      simp [hmem]

theorem uIntersection_length_eq_iff (xs ys : List String) (hnd : xs.Nodup) :
    (uIntersection xs ys).length = xs.length ↔ ∀ x ∈ xs, x ∈ ys := by
  unfold uIntersection
  rw [uIntersectionAux_eq ys [] xs hnd (by simp)]
  simp only [List.nil_append]
  constructor
  · intro hlen x hxs
    have heq : xs.filter (fun x => decide (x ∈ ys)) = xs :=
      (List.filter_sublist xs).eq_of_length hlen
    have := List.filter_eq_self.mp heq x hxs
    exact of_decide_eq_true this
  · intro hall
    rw [List.filter_eq_self.mpr (fun a ha => decide_eq_true (hall a ha))]

theorem checkProductsExist_eq (env : String → List String) (expected : List String)
    (dir : String) (hnd : expected.Nodup) :
    checkProductsExist env expected dir =
      if ∀ f ∈ expected, f ∈ env dir then some (cycleOf dir) else none := by
  unfold checkProductsExist
  exact if_congr (uIntersection_length_eq_iff expected (env dir) hnd) rfl rfl

theorem inspectLoop_eq_find (env : String → List String) (expected : List String)
    (hnd : expected.Nodup) (ds : List String) :
    inspectLoop env expected ds =
      match ds.find? (fun d => decide (∀ f ∈ expected, f ∈ env d)) with
      | some d => .ok (cycleOf d)
      | none => .error "cannot find most recent cycle" := by
  induction ds with
  | nil => rfl
  | cons d ds ih =>
    rw [inspectLoop, checkProductsExist_eq env expected d hnd]
    by_cases hd : ∀ f ∈ expected, f ∈ env d
    · rw [if_pos hd]
      simp [List.find?_cons, decide_eq_true hd]
    · rw [if_neg hd]
      simp only [List.find?_cons, decide_eq_false hd]
      exact ih

/-! ### Lexicographic order of candidate names versus chronology

JavaScript `sort()` compares the directory names as strings; on names of
the fixed shape `gfs.yyyymmddhh/` the string order coincides with the
numeric (chronological) order of the ten-digit timestamp.  The lemmas below
establish that bridge. -/

theorem lex_irrefl_chars : ∀ l : List Char, ¬ List.Lex (· < ·) l l
  | _, List.Lex.cons h => lex_irrefl_chars _ h
  | _, List.Lex.rel h => lt_irrefl _ h

theorem lex_append_prefix_iff (p l1 l2 : List Char) :
    List.Lex (· < ·) (p ++ l1) (p ++ l2) ↔ List.Lex (· < ·) l1 l2 := by
  induction p with
  | nil => simp
  | cons c p ih => simpa [List.Lex.cons_iff] using ih

theorem lex_append_suffix_iff (t : List Char) :
    ∀ l1 l2 : List Char, l1.length = l2.length →
      (List.Lex (· < ·) (l1 ++ t) (l2 ++ t) ↔ List.Lex (· < ·) l1 l2) := by
  intro l1
  induction l1 with
  | nil =>
    intro l2 hlen
    rw [List.length_nil] at hlen
    rw [List.eq_nil_of_length_eq_zero hlen.symm]
    exact iff_of_false (lex_irrefl_chars t) (List.Lex.not_nil_right _ _)
  | cons c l1 ih =>
    intro l2 hlen
    cases l2 with
    | nil => simp at hlen
    | cons d l2 =>
      simp only [List.length_cons, Nat.add_right_cancel_iff] at hlen
      by_cases hcd : c = d
      · subst hcd
        rw [List.cons_append, List.cons_append, List.Lex.cons_iff, List.Lex.cons_iff]
        exact ih l2 hlen
      · rcases lt_trichotomy c d with hlt | heq | hgt
        · exact iff_of_true (List.Lex.rel hlt) (List.Lex.rel hlt)
        · exact absurd heq hcd
        · refine iff_of_false ?_ ?_ <;> intro hcontra
          · cases hcontra with
            | cons h2 => exact hcd rfl
            | rel h2 => exact absurd h2 (not_lt.mpr (le_of_lt hgt))
          · cases hcontra with
            | cons h2 => exact hcd rfl
            | rel h2 => exact absurd h2 (not_lt.mpr (le_of_lt hgt))

theorem char_digit_bounds (c : Char) (h : c.isDigit = true) :
    48 ≤ c.toNat ∧ c.toNat ≤ 57 := by
  simp only [Char.isDigit, Bool.and_eq_true, decide_eq_true_eq] at h
  obtain ⟨h1, h2⟩ := h
  exact ⟨h1, h2⟩

theorem digitsToNat_lt_pow (cs : List Char) (h : ∀ c ∈ cs, c.isDigit = true) :
    digitsToNat cs < 10 ^ cs.length := by
  induction cs with
  | nil => simp [digitsToNat]
  | cons c cs ih =>
    have hc := char_digit_bounds c (h c (by simp))
    have htail := ih (fun x hx => h x (by simp [hx]))
    have h9 : c.toNat - 48 ≤ 9 := by omega
    simp only [digitsToNat, List.length_cons, pow_succ]
    have hmul : (c.toNat - 48) * 10 ^ cs.length ≤ 9 * 10 ^ cs.length :=
      Nat.mul_le_mul_right _ h9
    omega

theorem digitsToNat_lt_of_lex :
    ∀ {cs ds : List Char}, List.Lex (· < ·) cs ds →
      cs.length = ds.length → (∀ c ∈ cs, c.isDigit = true) → (∀ c ∈ ds, c.isDigit = true) →
      digitsToNat cs < digitsToNat ds := by
  intro cs ds hlex
  induction hlex with
  | nil =>
    intro hlen _ _
    simp at hlen
  | @cons a l1 l2 h ih =>
    intro hlen h1 h2
    simp only [List.length_cons, Nat.add_right_cancel_iff] at hlen
    have hv := ih hlen (fun x hx => h1 x (by simp [hx])) (fun x hx => h2 x (by simp [hx]))
    simp only [digitsToNat, hlen]
    omega
  | @rel a1 l1 a2 l2 h =>
    intro hlen h1 h2
    simp only [List.length_cons, Nat.add_right_cancel_iff] at hlen
    have hb1 := char_digit_bounds a1 (h1 a1 (by simp))
    have hb2 := char_digit_bounds a2 (h2 a2 (by simp))
    have hval : a1.toNat < a2.toNat := by
      have := Char.lt_def.mp h
      exact this
    have hd : a1.toNat - 48 < a2.toNat - 48 := by omega
    have hbound : digitsToNat l1 < 10 ^ l1.length :=
      digitsToNat_lt_pow l1 (fun x hx => h1 x (by simp [hx]))
    simp only [digitsToNat, hlen]
    calc (a1.toNat - 48) * 10 ^ l2.length + digitsToNat l1
        < (a1.toNat - 48) * 10 ^ l2.length + 10 ^ l2.length := by
          rw [← hlen]; omega
      _ = (a1.toNat - 48 + 1) * 10 ^ l2.length := by ring
      _ ≤ (a2.toNat - 48) * 10 ^ l2.length := Nat.mul_le_mul_right _ (by omega)
      _ ≤ (a2.toNat - 48) * 10 ^ l2.length + digitsToNat l2 := Nat.le_add_right _ _

theorem lex_digits_iff (cs ds : List Char) (hlen : cs.length = ds.length)
    (h1 : ∀ c ∈ cs, c.isDigit = true) (h2 : ∀ c ∈ ds, c.isDigit = true) :
    List.Lex (· < ·) cs ds ↔ digitsToNat cs < digitsToNat ds := by
  constructor
  · intro hlex
    exact digitsToNat_lt_of_lex hlex hlen h1 h2
  · intro hv
    rcases trichotomous_of (List.Lex ((· < ·) : Char → Char → Prop)) cs ds with hlex | heq | hlex
    · exact hlex
    · subst heq
      exact absurd hv (lt_irrefl _)
    · have := digitsToNat_lt_of_lex hlex hlen.symm h2 h1
      omega

theorem isCycleDir_shape (s : String) (h : isCycleDir s = true) :
    s.data = ['g', 'f', 's', '.'] ++ ((s.data.drop 4).take 10 ++ ['/']) ∧
    ((s.data.drop 4).take 10).length = 10 ∧
    ∀ c ∈ (s.data.drop 4).take 10, c.isDigit = true := by
  unfold isCycleDir at h
  simp only [Bool.and_eq_true, beq_iff_eq, List.all_eq_true] at h
  obtain ⟨⟨⟨htake, hlen⟩, hdig⟩, hdrop⟩ := h
  have hdlen : (s.data.drop 4).length = 11 := by rw [List.length_drop, hlen]
  have htlen : ((s.data.drop 4).take 10).length = 10 := by
    rw [List.length_take, hdlen]
    rfl
  refine ⟨?_, htlen, hdig⟩
  conv_lhs => rw [← List.take_append_drop 4 s.data]
  rw [htake]
  congr 1
  conv_lhs => rw [← List.take_append_drop 10 (s.data.drop 4)]
  congr 1
  have hdd : (s.data.drop 4).drop 10 = s.data.drop 14 := by
    rw [List.drop_drop]
  rw [hdd, hdrop]

theorem cycleDir_lt_iff (a b : String) (ha : isCycleDir a = true) (hb : isCycleDir b = true) :
    a < b ↔ chronoVal a < chronoVal b := by
  obtain ⟨hda, hlena, hdiga⟩ := isCycleDir_shape a ha
  obtain ⟨hdb, hlenb, hdigb⟩ := isCycleDir_shape b hb
  rw [String.lt_iff_toList_lt]
  show List.Lex (· < ·) a.data b.data ↔ _
  conv_lhs => rw [hda, hdb]
  rw [lex_append_prefix_iff, lex_append_suffix_iff ['/'] _ _ (by rw [hlena, hlenb])]
  exact lex_digits_iff _ _ (by rw [hlena, hlenb]) hdiga hdigb

theorem cycleDir_le_iff (a b : String) (ha : isCycleDir a = true) (hb : isCycleDir b = true) :
    a ≤ b ↔ chronoVal a ≤ chronoVal b := by
  have h := cycleDir_lt_iff b a hb ha
  constructor
  · intro hab
    by_contra hc
    push_neg at hc
    exact absurd (h.mpr hc) (not_lt.mpr hab)
  · intro hv
    by_contra hc
    push_neg at hc
    exact absurd (h.mp hc) (not_lt.mpr hv)

theorem lexLtb_iff (cs ds : List Char) : lexLtb cs ds = true ↔ List.Lex (· < ·) cs ds := by
  induction cs generalizing ds with
  | nil =>
    cases ds with
    | nil => exact iff_of_false (by simp [lexLtb]) (List.Lex.not_nil_right _ _)
    | cons d ds => exact iff_of_true rfl List.Lex.nil
  | cons c cs ih =>
    cases ds with
    | nil => exact iff_of_false (by simp [lexLtb]) (List.Lex.not_nil_right _ _)
    | cons d ds =>
      rcases lt_trichotomy c d with hcd | hcd | hcd
      · exact iff_of_true (by simp [lexLtb, hcd]) (List.Lex.rel hcd)
      · subst hcd
        have hno : ¬ c < c := lt_irrefl c
        calc lexLtb (c :: cs) (c :: ds) = true
            ↔ lexLtb cs ds = true := by simp [lexLtb, hno]
          _ ↔ List.Lex (· < ·) cs ds := ih ds
          _ ↔ List.Lex (· < ·) (c :: cs) (c :: ds) := List.Lex.cons_iff.symm
      · refine iff_of_false (by simp [lexLtb, hcd, not_lt.mpr (le_of_lt hcd)]) ?_
        intro hcontra
        cases hcontra with
        | cons h2 => exact absurd hcd (lt_irrefl _)
        | rel h2 => exact absurd h2 (not_lt.mpr (le_of_lt hcd))

theorem jsLtb_iff (a b : String) : jsLtb a b = true ↔ a < b := by
  rw [String.lt_iff_toList_lt]
  show _ ↔ List.Lex (· < ·) a.data b.data
  exact lexLtb_iff a.data b.data

theorem jsLeb_iff (a b : String) : jsLeb a b = true ↔ a ≤ b := by
  unfold jsLeb
  constructor
  · intro h
    rw [← not_lt]
    intro hlt
    rw [← jsLtb_iff b a] at hlt
    rw [hlt] at h
    exact absurd h (by simp)
  · intro h
    have hnot : ¬ b < a := not_lt.mpr h
    cases hb : jsLtb b a with
    | true => exact absurd ((jsLtb_iff b a).mp hb) hnot
    | false => rfl

/-- C6: for every directory listing, discovery sorts the candidate
cycle-directory names, inspects at most the 3 chronologically latest
candidates in newest-first order, returns the cycle of the first candidate
whose listing contains every expected product file name, and rejects with a
not-found error when none of those candidates is complete.  (`hnd`: the
expected file names, one per distinct forecast hour, are distinct; `hshape`:
the scraper's matches have the fixed `gfs.yyyymmddhh/` shape.) -/
theorem inspectRecentCycles_characterization (env : String → List String)
    (expected : List String) (dirs : List String)
    (hnd : expected.Nodup) (hshape : ∀ d ∈ dirs, isCycleDir d = true) :
    (inspectRecentCycles env expected dirs =
      match (lastN 3 (sortJS dirs)).reverse.find?
          (fun d => decide (∀ f ∈ expected, f ∈ env d)) with
      | some d => .ok (cycleOf d)
      | none => .error "cannot find most recent cycle") ∧
    (lastN 3 (sortJS dirs)).length ≤ 3 ∧
    (lastN 3 (sortJS dirs)).reverse.Pairwise (fun a b => chronoVal b ≤ chronoVal a) ∧
    (∀ d ∈ dirs, d ∉ lastN 3 (sortJS dirs) →
      ∀ c ∈ lastN 3 (sortJS dirs), chronoVal d ≤ chronoVal c) := by
  haveI inst1 : IsTotal String (fun a b => jsLeb a b = true) :=
    ⟨fun a b => by
      rw [jsLeb_iff, jsLeb_iff]
      exact le_total a b⟩
  haveI inst2 : IsTrans String (fun a b => jsLeb a b = true) :=
    ⟨fun a b c h1 h2 => by
      rw [jsLeb_iff] at h1 h2 ⊢
      exact le_trans h1 h2⟩
  have hsorted : (sortJS dirs).Pairwise (fun a b => jsLeb a b = true) :=
    List.sorted_insertionSort (fun a b => jsLeb a b = true) dirs
  have hsubl : List.Sublist (lastN 3 (sortJS dirs)) (sortJS dirs) :=
    List.drop_sublist _ _
  have hmem_sorted : ∀ x ∈ sortJS dirs, isCycleDir x = true := by
    intro x hx
    exact hshape x ((List.mem_insertionSort (fun a b => jsLeb a b = true)).mp hx)
  have hmem_cands : ∀ x ∈ lastN 3 (sortJS dirs), isCycleDir x = true :=
    fun x hx => hmem_sorted x (hsubl.subset hx)
  refine ⟨?_, ?_, ?_, ?_⟩
  · unfold inspectRecentCycles
    exact inspectLoop_eq_find env expected hnd _
  · unfold lastN
    rw [List.length_drop]
    omega
  · rw [List.pairwise_reverse]
    have hc : (lastN 3 (sortJS dirs)).Pairwise (fun a b => jsLeb a b = true) :=
      List.Pairwise.sublist hsubl hsorted
    exact hc.imp_of_mem (fun ha hb hle =>
      (cycleDir_le_iff _ _ (hmem_cands _ ha) (hmem_cands _ hb)).mp ((jsLeb_iff _ _).mp hle))
  · intro d hd hdnot c hc
    have hd2 : d ∈ sortJS dirs := (List.mem_insertionSort (fun a b => jsLeb a b = true)).mpr hd
    have hsplit := List.take_append_drop ((sortJS dirs).length - 3) (sortJS dirs)
    have hd3 : d ∈ (sortJS dirs).take ((sortJS dirs).length - 3) := by
      rw [← hsplit] at hd2
      rcases List.mem_append.mp hd2 with h | h
      · exact h
      · exact absurd h hdnot
    have hpw : ((sortJS dirs).take ((sortJS dirs).length - 3) ++
        lastN 3 (sortJS dirs)).Pairwise (fun a b => jsLeb a b = true) := by
      unfold lastN
      rw [hsplit]
      exact hsorted
    have hle : jsLeb d c = true := (List.pairwise_append.mp hpw).2.2 d hd3 c hc
    exact (cycleDir_le_iff d c (hshape d hd) (hmem_cands c hc)).mp ((jsLeb_iff d c).mp hle)

/-- Witness for C6: three candidate directories; the newest one is
incomplete, the middle one is complete, so discovery returns the middle
cycle `2021010106`. -/
theorem inspectRecentCycles_characterization_witness :
    (["gfs.t06z.pgrb2.1p00.f00", "gfs.t06z.pgrb2.1p00.f03"] : List String).Nodup ∧
    (∀ d ∈ (["gfs.2021010100/", "gfs.2021010112/", "gfs.2021010106/"] : List String),
      isCycleDir d = true) ∧
    inspectRecentCycles
      (fun d => if d = "gfs.2021010106/"
        then ["gfs.t06z.pgrb2.1p00.f00", "gfs.t06z.pgrb2.1p00.f03"] else [])
      ["gfs.t06z.pgrb2.1p00.f00", "gfs.t06z.pgrb2.1p00.f03"]
      ["gfs.2021010100/", "gfs.2021010112/", "gfs.2021010106/"] = .ok "2021010106" := by
  refine ⟨by decide, by decide, ?_⟩
  rw [(inspectRecentCycles_characterization
    (fun d => if d = "gfs.2021010106/"
      then ["gfs.t06z.pgrb2.1p00.f00", "gfs.t06z.pgrb2.1p00.f03"] else [])
    ["gfs.t06z.pgrb2.1p00.f00", "gfs.t06z.pgrb2.1p00.f03"]
    ["gfs.2021010100/", "gfs.2021010112/", "gfs.2021010106/"]
    (by decide) (by decide)).1]
  rfl

/-! ### Lemmas about the current-pointer walks -/

theorem searchBack_unfold (p : Int → Bool) (tda t : Int) :
    searchBack p tda t =
      if p t then .ok t
      else if t - sixHours < tda then .error "No recent layers found."
      else searchBack p tda (t - sixHours) := by
  rw [searchBack]

theorem walkToNow_fixed (now : Int) :
    walkToNow now (cycleFromTimestamp now + sixHours) = cycleFromTimestamp now := by
  have hmod0 : 0 ≤ now % sixHours := Int.emod_nonneg now (by decide)
  have hmodlt : now % sixHours < sixHours := Int.emod_lt_of_pos now (by decide)
  have h1 : now < cycleFromTimestamp now + sixHours := by
    unfold cycleFromTimestamp
    omega
  have h2 : ¬ now < cycleFromTimestamp now := by
    unfold cycleFromTimestamp
    omega
  rw [walkToNow, if_pos h1,
    show cycleFromTimestamp now + sixHours - sixHours = cycleFromTimestamp now by ring,
    walkToNow, if_neg h2]

theorem searchBack_ok_characterization (p : Int → Bool) (tda t : Int) :
    ∀ u, searchBack p tda t = .ok u →
      p u = true ∧ u ≤ t ∧ sixHours ∣ (t - u) ∧
        ∀ s, u < s → s ≤ t → sixHours ∣ (t - s) → p s = false := by
  refine searchBack.induct p tda
    (fun t => ∀ u, searchBack p tda t = .ok u →
      p u = true ∧ u ≤ t ∧ sixHours ∣ (t - u) ∧
        ∀ s, u < s → s ≤ t → sixHours ∣ (t - s) → p s = false) ?_ ?_ ?_ t
  · intro x hp u h
    rw [searchBack_unfold, if_pos hp] at h
    cases h
    refine ⟨hp, le_refl x, ⟨0, by ring⟩, ?_⟩
    intro s hus hsx _hdvd
    omega
  · intro x hp t1 hlt u h
    rw [searchBack_unfold, if_neg hp, if_pos (show x - sixHours < tda from hlt)] at h
    cases h
  · intro x hp t1 hlt ih u h
    rw [searchBack_unfold, if_neg hp, if_neg (show ¬ x - sixHours < tda from hlt)] at h
    obtain ⟨hpu, hle, hdvd, hfirst⟩ := ih u h
    have h6 : sixHours = (21600000 : Int) := rfl
    have hle2 : u ≤ x - sixHours := hle
    have hdvd2 : sixHours ∣ (x - sixHours - u) := hdvd
    refine ⟨hpu, by rw [h6] at hle2; omega, ?_, ?_⟩
    · rw [h6] at hdvd2 ⊢
      omega
    · intro s hus hsx hdvds
      by_cases hseq : s = x
      · subst hseq
        exact Bool.not_eq_true (p s) ▸ (by simpa using hp)
      · have hslt : s ≤ x - sixHours := by
          rw [h6] at hdvds ⊢
          omega
        refine hfirst s hus hslt ?_
        rw [h6] at hdvds ⊢
        omega

theorem searchBack_error_characterization (p : Int → Bool) (tda t : Int) :
    searchBack p tda t = .error "No recent layers found." ↔
      p t = false ∧ ∀ s, tda ≤ s → s < t → sixHours ∣ (t - s) → p s = false := by
  have h6 : sixHours = (21600000 : Int) := rfl
  refine searchBack.induct p tda
    (fun t => searchBack p tda t = .error "No recent layers found." ↔
      p t = false ∧ ∀ s, tda ≤ s → s < t → sixHours ∣ (t - s) → p s = false) ?_ ?_ ?_ t
  · intro x hp
    rw [searchBack_unfold, if_pos hp]
    refine iff_of_false (by simp) ?_
    rintro ⟨hfalse, _⟩
    rw [hp] at hfalse
    cases hfalse
  · intro x hp t1 hlt
    have hlt2 : x - sixHours < tda := hlt
    rw [searchBack_unfold, if_neg hp, if_pos hlt2]
    refine iff_of_true rfl ⟨Bool.not_eq_true (p x) ▸ (by simpa using hp), ?_⟩
    intro s h1 h2 hdvds
    exact absurd h1 (by rw [h6] at hdvds hlt2; omega)
  · intro x hp t1 hlt ih
    have hlt2 : ¬ x - sixHours < tda := hlt
    have ih2 : searchBack p tda (x - sixHours) = .error "No recent layers found." ↔
        p (x - sixHours) = false ∧
          ∀ s, tda ≤ s → s < x - sixHours → sixHours ∣ (x - sixHours - s) → p s = false := ih
    rw [searchBack_unfold, if_neg hp, if_neg hlt2, ih2]
    constructor
    · rintro ⟨hp1, hinner⟩
      refine ⟨Bool.not_eq_true (p x) ▸ (by simpa using hp), ?_⟩
      intro s h1 h2 hdvds
      by_cases hseq : s = x - sixHours
      · subst hseq
        exact hp1
      · refine hinner s h1 ?_ ?_
        · rw [h6] at hdvds ⊢
          omega
        · rw [h6] at hdvds ⊢
          omega
    · rintro ⟨_, hinner⟩
      refine ⟨?_, ?_⟩
      · refine hinner (x - sixHours) (by rw [h6] at hlt2 ⊢; omega) (by rw [h6]; omega) ?_
        rw [h6]
        omega
      · intro s h1 h2 hdvds
        refine hinner s h1 (by rw [h6] at hdvds; omega) ?_
        rw [h6] at hdvds ⊢
        omega

/-- Helper: with the current flag set, the publish overwrite predicate is
true against every remote metadata map (`... || layer.isCurrent`). -/
theorem isNewerThan_current_always (m : Metadata) (ct : Int) :
    isNewerThan m ct true = true := by
  unfold isNewerThan
  cases lookupMeta m "reference-time" with
  | none => rfl
  | some s =>
    show (if s = "" then true else jsDateLt (jsParseDate s) ct || true) = true
    by_cases hs : s = ""
    · rw [if_pos hs]
    · rw [if_neg hs, Bool.or_true]

/-- Helper: the value `copyCurrent` returns once the backward search has
found a layer on disk. -/
theorem copyCurrent_eq_of_searchBack_ok (env : CurrentEnv) (u : Int)
    (h : searchBack env.onDisk (env.now - 3 * 24 * 60 * 60 * 1000)
      (walkToNow env.now (cycleFromTimestamp env.now + sixHours)) = .ok u) :
    copyCurrent env = .ok (LAYER_RECIPES.map (fun r =>
      CopyOp.mk
        (.dated (cycleFromTimestamp env.headerRefTime) env.headerForecastTime r.name)
        (.currentAlias r.name)
        ⟨r.name, cycleFromTimestamp env.headerRefTime, env.headerForecastTime, true⟩)) := by
  simp only [copyCurrent]
  rw [h]
  simp [layerPath]

/-- C7: the current-pointer manager starts from the cycle just after `now`
(the first loop lands exactly on the cycle containing `now`, having started
at its successor), walks cycles backward until the anchor layer exists on
disk, rejects with the no-recent-layers error exactly when no 6-hour grid
point within the 3-day lookback window has the anchor layer, and otherwise
emits one alias copy-operation per recipe (7 in total), each copying the
dated layer file to the current-alias path with the destination layer
flagged current, which forces the publish predicate to true against every
remote metadata map. -/
theorem copyCurrent_characterization (env : CurrentEnv) :
    walkToNow env.now (cycleFromTimestamp env.now + sixHours) = cycleFromTimestamp env.now ∧
    (copyCurrent env = .error "No recent layers found." ↔
      env.onDisk (cycleFromTimestamp env.now) = false ∧
      ∀ s, env.now - 259200000 ≤ s → s < cycleFromTimestamp env.now →
        sixHours ∣ (cycleFromTimestamp env.now - s) → env.onDisk s = false) ∧
    (∀ u, searchBack env.onDisk (env.now - 259200000) (cycleFromTimestamp env.now) = .ok u →
      env.onDisk u = true ∧ u ≤ cycleFromTimestamp env.now ∧
        sixHours ∣ (cycleFromTimestamp env.now - u)) ∧
    (∀ ops, copyCurrent env = .ok ops →
      ops.length = 7 ∧
      ops = LAYER_RECIPES.map (fun r =>
        CopyOp.mk
          (.dated (cycleFromTimestamp env.headerRefTime) env.headerForecastTime r.name)
          (.currentAlias r.name)
          ⟨r.name, cycleFromTimestamp env.headerRefTime, env.headerForecastTime, true⟩) ∧
      ∀ op ∈ ops, op.destLayer.isCurrent = true ∧
        pushLayer true (some op.destLayer) = .uploadCall op.destLayer.cycleTime true ∧
        ∀ m : Metadata, isNewerThan m op.destLayer.cycleTime op.destLayer.isCurrent = true) := by
  have hwalk := walkToNow_fixed env.now
  have hcc : copyCurrent env =
      (match searchBack env.onDisk (env.now - 259200000) (cycleFromTimestamp env.now) with
      | .error e => .error e
      | .ok _found => .ok (LAYER_RECIPES.map (fun r =>
          CopyOp.mk
            (.dated (cycleFromTimestamp env.headerRefTime) env.headerForecastTime r.name)
            (.currentAlias r.name)
            ⟨r.name, cycleFromTimestamp env.headerRefTime, env.headerForecastTime, true⟩))) := by
    simp only [copyCurrent]
    rw [hwalk, show env.now - 3 * 24 * 60 * 60 * 1000 = env.now - 259200000 by ring]
    cases searchBack env.onDisk (env.now - 259200000) (cycleFromTimestamp env.now) with
    | error e => rfl
    | ok u => simp [layerPath]
  refine ⟨hwalk, ?_, ?_, ?_⟩
  · rw [hcc]
    cases hsb : searchBack env.onDisk (env.now - 259200000) (cycleFromTimestamp env.now) with
    | ok u =>
      refine iff_of_false (by simp) ?_
      intro hr
      have hcontra := (searchBack_error_characterization env.onDisk
        (env.now - 259200000) (cycleFromTimestamp env.now)).mpr hr
      rw [hsb] at hcontra
      cases hcontra
    | error e =>
      have herr := searchBack_error_characterization env.onDisk
        (env.now - 259200000) (cycleFromTimestamp env.now)
      rw [hsb] at herr
      simp only [Except.error.injEq] at herr ⊢
      exact herr
  · intro u hok
    obtain ⟨h1, h2, h3, _⟩ := searchBack_ok_characterization env.onDisk
      (env.now - 259200000) (cycleFromTimestamp env.now) u hok
    exact ⟨h1, h2, h3⟩
  · intro ops hops
    rw [hcc] at hops
    cases hsb : searchBack env.onDisk (env.now - 259200000) (cycleFromTimestamp env.now) with
    | error e =>
      rw [hsb] at hops
      simp at hops
    | ok u =>
      rw [hsb] at hops
      have hmapeq : ops = LAYER_RECIPES.map (fun r =>
          CopyOp.mk
            (.dated (cycleFromTimestamp env.headerRefTime) env.headerForecastTime r.name)
            (.currentAlias r.name)
            ⟨r.name, cycleFromTimestamp env.headerRefTime, env.headerForecastTime, true⟩) := by
        simp only [Except.ok.injEq] at hops
        exact hops.symm
      refine ⟨?_, hmapeq, ?_⟩
      · rw [hmapeq, List.length_map]
        rfl
      · intro op hop
        rw [hmapeq] at hop
        obtain ⟨r, hr, rfl⟩ := List.mem_map.mp hop
        exact ⟨rfl, rfl, fun m => isNewerThan_current_always m _⟩

/-- Witness for C7: with `now` half an hour past the 12:30 mark of the
epoch day, the anchor layer on disk only at the 06:00 cycle, and a header
pointing at that cycle, `copyCurrent` succeeds and emits the 7 alias
copies. -/
theorem copyCurrent_characterization_witness :
    copyCurrent ⟨45000000, fun t => decide (t = 21600000), 21600000, 0⟩ =
      .ok (LAYER_RECIPES.map (fun r =>
        CopyOp.mk (.dated 21600000 0 r.name) (.currentAlias r.name)
          ⟨r.name, 21600000, 0, true⟩)) ∧
    (LAYER_RECIPES.map (fun r =>
      CopyOp.mk (.dated 21600000 0 r.name) (.currentAlias r.name)
        ⟨r.name, 21600000, 0, true⟩)).length = 7 ∧
    ∀ op ∈ (LAYER_RECIPES.map (fun r =>
      CopyOp.mk (.dated 21600000 0 r.name) (.currentAlias r.name)
        ⟨r.name, 21600000, 0, true⟩)),
      op.destLayer.isCurrent = true ∧
      ∀ m : Metadata, isNewerThan m op.destLayer.cycleTime op.destLayer.isCurrent = true := by
  have hsb0 : searchBack (fun t => decide (t = 21600000))
      (45000000 - 3 * 24 * 60 * 60 * 1000) 43200000 = .ok 21600000 := by
    rw [searchBack_unfold, if_neg (by decide), if_neg (by decide),
      searchBack_unfold, if_pos (by decide),
      show (43200000 : Int) - sixHours = 21600000 by decide]
  have hval : copyCurrent ⟨45000000, fun t => decide (t = 21600000), 21600000, 0⟩ =
      .ok (LAYER_RECIPES.map (fun r =>
        CopyOp.mk (.dated 21600000 0 r.name) (.currentAlias r.name)
          ⟨r.name, 21600000, 0, true⟩)) := by
    have hv := copyCurrent_eq_of_searchBack_ok
      ⟨45000000, fun t => decide (t = 21600000), 21600000, 0⟩ 21600000
      (by
        show searchBack (fun t => decide (t = 21600000)) (45000000 - 3 * 24 * 60 * 60 * 1000)
          (walkToNow 45000000 (cycleFromTimestamp 45000000 + sixHours)) = .ok 21600000
        rw [walkToNow_fixed 45000000, show cycleFromTimestamp (45000000 : Int) = 43200000 by decide]
        exact hsb0)
    rw [hv]
    rw [show cycleFromTimestamp ((⟨45000000, fun t => decide (t = 21600000), 21600000, 0⟩ :
      CurrentEnv)).headerRefTime = 21600000 by decide]
  have hmain := (copyCurrent_characterization
    ⟨45000000, fun t => decide (t = 21600000), 21600000, 0⟩).2.2.2 _ hval
  refine ⟨hval, ?_, ?_⟩
  · rfl
  · intro op hop
    exact ⟨(hmain.2.2 op hop).1, fun m => (hmain.2.2 op hop).2.2 m⟩
